import Mathlib

/-!
Verification of the GNINA HPC batch docking workflow.

The definitions below are a shallow embedding of the Python sources:
* `scripts/docking_engine.py`  (class `GNINADockingEngine`)
* `scripts/tiered_workflow.py` (class `TieredCNNWorkflow`)
* `scripts/config.py`          (class `GNINADockingConfig`)

Python strings are embedded as `String` (operated on through their
`List Char` data so that everything reduces), floats as `ℚ`, and the
external tool plus the filesystem as explicit oracles threaded through
the functions.  The nondeterministic completion order of the thread
pool (`concurrent.futures.as_completed`) is embedded as an explicit
permutation parameter over batch indices.
-/

namespace GninaWf

/-! ### Generic string and list helpers (embedding Python primitives) -/

/-- Boolean test that `p` is a leading segment of `l` (used to embed
Python's substring test). -/
def leadsB : List Char → List Char → Bool
  | [], _ => true
  | _ :: _, [] => false
  | a :: as, b :: bs => a = b && leadsB as bs

/-- Embeds Python's `needle in haystack` substring containment test. -/
def containsSub (needle : List Char) : List Char → Bool
  | [] => leadsB needle []
  | c :: cs => leadsB needle (c :: cs) || containsSub needle cs

/-- Embeds Python's `content.split('\n')`: split at every newline, never
collapsing; the empty string yields `[""]`. -/
def splitNl : List Char → List (List Char)
  | [] => [[]]
  | c :: cs =>
    if c = '\n' then [] :: splitNl cs
    else
      match splitNl cs with
      | [] => [[c]]
      | l :: ls => (c :: l) :: ls

/-- Embeds Python's `line.split()[-1]` with the `IndexError` for an empty
token list mapped to `none`: the last whitespace-separated token. -/
def lastToken (l : List Char) : Option String :=
  match l.reverse.dropWhile Char.isWhitespace with
  | [] => none
  | r => some ⟨(r.takeWhile (fun c => !c.isWhitespace)).reverse⟩

/-- Strips the given suffix from a character list, or `none` when the list
does not end with it (embeds `file.endswith(suf)` plus `file.replace(suf, '')`
for a terminal occurrence). -/
def stripSuffixQ (suf l : List Char) : Option (List Char) :=
  if leadsB suf.reverse l.reverse then some (l.reverse.drop suf.length).reverse
  else none

/-- Maximum of a rational list with Python's convention that the sources
only apply it to nonempty data (`pandas.Series.max`); `0` for the empty
list is an arbitrary default never reached on the modelled paths. -/
def maxD : List ℚ → ℚ
  | [] => 0
  | x :: xs => xs.foldl max x

/-- First-occurrence deduplication, embedding `pandas.Series.unique`. -/
def dedupFirstAux [DecidableEq α] (seen : List α) : List α → List α
  | [] => []
  | x :: xs => if x ∈ seen then dedupFirstAux seen xs else x :: dedupFirstAux (x :: seen) xs

/-- First-occurrence deduplication of a list. -/
def dedupFirst [DecidableEq α] (l : List α) : List α := dedupFirstAux [] l

/-- Code-point comparison of characters (Python string ordering). -/
def charLtB (a b : Char) : Bool := a.val < b.val

/-- Lexicographic code-point order on character lists (Python `str` order,
used by `pandas.groupby`, which sorts group keys). -/
def listLtB : List Char → List Char → Bool
  | [], [] => false
  | [], _ :: _ => true
  | _ :: _, [] => false
  | a :: as, b :: bs => if a = b then listLtB as bs else charLtB a b

/-- Python string `<` on the embedding. -/
def strLtB (a b : String) : Bool := listLtB a.data b.data

/-- Fuel-driven worker for `chunksOf` (structural so that it evaluates). -/
def chunksGo (k : ℕ) : ℕ → List α → List (List α)
  | _, [] => []
  | 0, _ :: _ => []
  | fuel + 1, a :: t => (a :: t).take k :: chunksGo k fuel ((a :: t).drop k)

/-- Embeds the batch split `[df.iloc[i:i+batch_size] for i in range(0, n, batch_size)]`
from `run_parallel_docking`; defined (as in Python) only for a positive
batch size, returning `[]` when it is `0`. -/
def chunksOf (k : ℕ) (l : List α) : List (List α) :=
  if k = 0 then [] else chunksGo k l.length l

/-! ### Output Parser (`GNINADockingEngine.parse_gnina_output`) -/

/-- One pose-score record extracted from an artifact, embedding the dict
`{'pose_id': …, 'cnn_score': …, 'cnn_affinity': …}` built by
`parse_gnina_output`. -/
structure PoseScore where
  pose_id : ℕ
  cnn_score : ℚ
  cnn_affinity : ℚ
deriving DecidableEq, Repr

/-- The tag scanned for by the parser (`'CNNscore' in line`). -/
def cnnTag : List Char := "CNNscore".data

/-- Worker loop of `parse_gnina_output`: one pass over the artifact's
lines, appending a `PoseScore` for each line containing `CNNscore` whose
last token parses as a float (`parseF` embeds Python's `float`; both the
`IndexError` on a token-less line and the `ValueError` on a non-numeric
token are caught by the source's bare `except: continue`). -/
def parseLinesGo (parseF : String → Option ℚ) : List (List Char) → List PoseScore → List PoseScore
  | [], scores => scores
  | line :: rest, scores =>
    if containsSub cnnTag line then
      match (lastToken line).bind parseF with
      | some v => parseLinesGo parseF rest (scores ++ [⟨scores.length + 1, v, v⟩])
      | none => parseLinesGo parseF rest scores
    else parseLinesGo parseF rest scores

/-- Embeds `GNINADockingEngine.parse_gnina_output`.  The argument is the
content of the output artifact, `none` when the file is missing (the
source's `os.path.exists` guard).  The log-file pass of the source reads
`log_content` but stores nothing, so it has no observable effect and is
omitted; the surrounding `try/except` makes the function total. -/
def parseGninaOutput (parseF : String → Option ℚ) (sdfContent : Option String) : List PoseScore :=
  match sdfContent with
  | none => []
  | some content => parseLinesGo parseF (splitNl content.data) []

/-- The trailing numeric tokens of the recognized (`CNNscore`-tagged)
lines of an artifact, in line order. -/
def recognizedVals (parseF : String → Option ℚ) (content : String) : List ℚ :=
  (splitNl content.data).filterMap
    (fun line => if containsSub cnnTag line then (lastToken line).bind parseF else none)

/-- Turns a value list into `PoseScore`s numbered consecutively from `k`. -/
def numberFrom (k : ℕ) : List ℚ → List PoseScore
  | [] => []
  | v :: vs => ⟨k, v, v⟩ :: numberFrom (k + 1) vs

/-! ### Work items, configuration and command construction -/

/-- One catalog row (a validated `pairlist` record): receptor–ligand pair
with site id and docking-box geometry. -/
structure Row where
  receptor : String
  ligand : String
  site_id : String
  center_x : ℚ
  center_y : ℚ
  center_z : ℚ
  size_x : ℚ
  size_y : ℚ
  size_z : ℚ
deriving DecidableEq, Repr

/-- The tag `f"{row['receptor']}_{row['site_id']}_{row['ligand']}"` built in
`build_gnina_command`; `run_single_docking` rebuilds the same f-string as
`pair_id`. -/
def tagOf (row : Row) : String := row.receptor ++ "_" ++ row.site_id ++ "_" ++ row.ligand

/-- The resume key of a work item (identical expression to `tagOf`). -/
def pairId (row : Row) : String := tagOf row

/-- Bare artifact filename inside `gnina_out/` (`f"{tag}_poses.sdf"`). -/
def sdfName (row : Row) : String := tagOf row ++ "_poses.sdf"

/-- The output artifact path `f"gnina_out/{tag}_poses.sdf"`. -/
def outputSdf (row : Row) : String := "gnina_out/" ++ sdfName row

/-- The log path `f"logs/{tag}.log"`. -/
def logFile (row : Row) : String := "logs/" ++ tagOf row ++ ".log"

/-- The fields of `GNINADockingConfig.active_config` read when building a
command (floats as `ℚ`). -/
structure ActiveConfig where
  exhaustiveness : ℕ := 32
  num_modes : ℕ := 20
  seed : ℕ := 42
  cpu_cores : ℕ := 4
  timeout : ℕ := 300
  min_rmsd_filter : ℚ := 1
  pose_sort_order : ℕ := 0
  cnn_rotation : ℕ := 0
  add_hydrogens : Bool := true
  strip_hydrogens : Bool := false
  use_gpu : Bool := true
  gpu_device : ℕ := 0
  cnn_scoring : String := "rescore"

/-- The fields of `GNINADockingConfig.hpc_config`. -/
structure HpcConfig where
  use_apptainer : Bool := true
  apptainer_image : String := "$HOME/cuda12.3.2-cudnn9-runtime-ubuntu22.04.sif"
  gnina_binary : String := "$HOME/gnina"
  use_gpu_flag : String := "--nv"

/-- Embeds `GNINADockingConfig.get_gnina_command_base`: search parameters
plus the GPU/CPU device selection; `baseUseGpu` is the result of the
startup `nvidia-smi` probe stored in `base_config['use_gpu']`. -/
def getGninaCommandBase (baseUseGpu : Bool) (c : ActiveConfig) : List String :=
  ["--exhaustiveness", toString c.exhaustiveness,
   "--num_modes", toString c.num_modes,
   "--seed", toString c.seed,
   "--cnn_scoring", c.cnn_scoring,
   "--cnn_rotation", toString c.cnn_rotation,
   "--min_rmsd_filter", toString c.min_rmsd_filter,
   "--pose_sort_order", toString c.pose_sort_order] ++
  (if c.use_gpu && baseUseGpu then ["--device", toString c.gpu_device]
   else ["--cpu", toString c.cpu_cores]) ++
  (if c.add_hydrogens then ["--addH"] else []) ++
  (if c.strip_hydrogens then ["--stripH"] else [])

/-- Embeds `GNINADockingConfig.get_apptainer_command`. -/
def getApptainerCommand (h : HpcConfig) (gnina_args : List String) : List String :=
  if !h.use_apptainer then gnina_args
  else ["apptainer", "exec", h.use_gpu_flag, h.apptainer_image, h.gnina_binary] ++ gnina_args

/-- Embeds `GNINADockingEngine.build_gnina_command`, returning the full
command together with the derived artifact and log paths. -/
def buildGninaCommand (h : HpcConfig) (baseUseGpu : Bool) (c : ActiveConfig)
    (row : Row) (flexible_residues : Option (List String)) :
    List String × String × String :=
  let gnina_args :=
    ["--receptor", "receptors/" ++ row.receptor ++ ".pdbqt",
     "--ligand", "ligands/" ++ row.ligand ++ ".pdbqt",
     "--out", outputSdf row,
     "--log", logFile row,
     "--center_x", toString row.center_x,
     "--center_y", toString row.center_y,
     "--center_z", toString row.center_z,
     "--size_x", toString row.size_x,
     "--size_y", toString row.size_y,
     "--size_z", toString row.size_z] ++
    getGninaCommandBase baseUseGpu c ++
    (match flexible_residues with
     | some flex =>
       ["--flexres", String.intercalate "," flex, "--flexdist", "3.5",
        "--out_flex", "gnina_out/" ++ tagOf row ++ "_flex.pdbqt"]
     | none => [])
  (getApptainerCommand h gnina_args, outputSdf row, logFile row)

/-! ### Tool Invoker and Batch Scheduler
(`run_single_docking`, `_process_batch`, `run_parallel_docking`) -/

/-- Status of a `DockingResult` (the `'status'` dict key). -/
inductive DockStatus where
  | success
  | error
  | timeout
deriving DecidableEq, Repr

/-- The result dict produced per dispatched work item; optional fields
model keys present only on some branches of `run_single_docking`. -/
structure DockResult where
  status : DockStatus
  receptor : String
  ligand : String
  site_id : String
  output_file : Option String := none
  log_file : Option String := none
  scores : List PoseScore := []
  error : Option String := none
  returncode : Option ℤ := none
  pair_id : String
  batch_idx : ℕ := 0
deriving DecidableEq, Repr

/-- Outcome of one external-tool child process: either the wall-clock
timeout fired (`subprocess.TimeoutExpired`) or it exited with a code and
captured stderr; `artifactWritten` records whether the process left the
expected output artifact on disk. -/
inductive InvokeOutcome where
  | timedOut (artifactWritten : Bool)
  | exited (returncode : ℤ) (stderr : String) (artifactWritten : Bool)
deriving DecidableEq

/-- The external world: the docking tool (`subprocess.run`), the content
of on-disk artifacts (by bare filename inside `gnina_out/`) and Python's
`float` parsing of score tokens. -/
structure Env where
  invoke : Row → InvokeOutcome
  artifactContent : String → String
  parseF : String → Option ℚ

/-- Output of one `run_single_docking` call: the optional result dict
(`None` when the pair was skipped as already completed), the updated set
of artifact files, and the pair ids for which a child process was
actually launched (`[]` or `[pairId row]`). -/
structure SingleOut where
  result : Option DockResult
  fs : List String
  dispatched : List String

/-- Embeds `GNINADockingEngine.run_single_docking`.  `completed` is the
engine's `completed_pairs` set, `fs` the bare filenames present in
`gnina_out/`.  A pair already in `completed` is skipped and yields no
result; otherwise the tool is invoked once and exactly one result dict is
produced (`success` needs exit code 0 and an existing artifact). -/
def runSingleDocking (completed : List String) (fs : List String) (env : Env) (row : Row) :
    SingleOut :=
  if pairId row ∈ completed then ⟨none, fs, []⟩
  else
    match env.invoke row with
    | .timedOut w =>
      ⟨some { status := .timeout, receptor := row.receptor, ligand := row.ligand,
              site_id := row.site_id, error := some "Timeout", pair_id := pairId row },
       if w then sdfName row :: fs else fs, [pairId row]⟩
    | .exited rc stderr w =>
      if rc = 0 ∧ sdfName row ∈ (if w then sdfName row :: fs else fs) then
        ⟨some { status := .success, receptor := row.receptor, ligand := row.ligand,
                site_id := row.site_id, output_file := some (outputSdf row),
                log_file := some (logFile row),
                scores := parseGninaOutput env.parseF (some (env.artifactContent (sdfName row))),
                pair_id := pairId row },
         if w then sdfName row :: fs else fs, [pairId row]⟩
      else
        ⟨some { status := .error, receptor := row.receptor, ligand := row.ligand,
                site_id := row.site_id, error := some stderr, returncode := some rc,
                pair_id := pairId row },
         if w then sdfName row :: fs else fs, [pairId row]⟩

/-- Accumulated output of `_process_batch`. -/
structure BatchOut where
  results : List DockResult
  fs : List String
  dispatched : List String

/-- One iteration of `_process_batch`: run one row, append its result
dict (tagged with the batch index) when it is not `None`. -/
def batchStep (completed : List String) (env : Env) (bidx : ℕ) (acc : BatchOut) (row : Row) :
    BatchOut :=
  { results := acc.results ++
      ((runSingleDocking completed acc.fs env row).result.map
        (fun r => { r with batch_idx := bidx })).toList
    fs := (runSingleDocking completed acc.fs env row).fs
    dispatched := acc.dispatched ++ (runSingleDocking completed acc.fs env row).dispatched }

/-- Embeds `GNINADockingEngine._process_batch`: the rows of one batch are
processed sequentially on one worker; skipped rows (result `None`)
contribute nothing, every other row contributes exactly one result tagged
with the batch index.  The flexible-residue lookup only alters the child
command, not the result structure, and is absorbed by `env.invoke`. -/
def processBatch (completed : List String) (fs : List String) (env : Env)
    (batch : List Row) (bidx : ℕ) : BatchOut :=
  batch.foldl (batchStep completed env bidx) ⟨[], fs, []⟩

/-- Pair ids of the successful results (the keys the aggregation loop of
`run_parallel_docking` adds to `completed_pairs`). -/
def successIds (rs : List DockResult) : List String :=
  (rs.filter (fun r => decide (r.status = DockStatus.success))).map (·.pair_id)

/-- Reverses the artifact naming convention for one directory entry of
`gnina_out/` (`load_completed_pairs`): files ending in `_poses.sdf` yield
the pair id, others nothing. -/
def scanKey (file : String) : Option String :=
  (stripSuffixQ "_poses.sdf".data file.data).map (fun l => (⟨l⟩ : String))

/-- Embeds `GNINADockingEngine.load_completed_pairs`: adds to the current
`completed_pairs` every key reconstructed from an artifact filename. -/
def loadCompletedPairs (fs : List String) (current : List String) : List String :=
  current ++ fs.filterMap scanKey

/-- The completed-key set a fresh engine uses at the start of
`run_parallel_docking` (its only reconciliation step is
`load_completed_pairs`; a fresh engine starts with an empty set). -/
def startupCompleted (fs : List String) : List String := loadCompletedPairs fs []

/-- The persisted ledger file content (`docking_state.json`), as written
by `save_docking_state`: timestamp, counters and the completed keys. -/
structure SavedState where
  timestamp : String
  total_pairs : ℕ
  completed_pairs : List String
  results_count : ℕ
deriving DecidableEq, Repr

/-- Embeds `GNINADockingEngine.load_docking_state`: when the state file
exists its key list replaces the in-memory `completed_pairs`; note that
`run_parallel_docking` never calls this. -/
def loadDockingState (file : Option SavedState) (completed : List String) : List String :=
  match file with
  | some st => st.completed_pairs
  | none => completed

/-- State threaded through the batch-aggregation loop of
`run_parallel_docking`. -/
structure RunState where
  results : List DockResult
  completed : List String
  fs : List String
  dispatched : List String

/-- One iteration of the `as_completed` aggregation loop: batch `i`
finishes, its results are appended to `all_results` and its successful
keys to `completed_pairs` (then the state file is rewritten, modelled
separately by `saveDockingStateTrace`). -/
def stepBatch (env : Env) (batches : List (List Row)) (st : RunState) (i : ℕ) : RunState :=
  { results := st.results ++ (processBatch st.completed st.fs env (batches.getD i []) i).results
    completed := st.completed ++
      successIds (processBatch st.completed st.fs env (batches.getD i []) i).results
    fs := (processBatch st.completed st.fs env (batches.getD i []) i).fs
    dispatched := st.dispatched ++
      (processBatch st.completed st.fs env (batches.getD i []) i).dispatched }

/-- The aggregation loop over batch indices in completion order `p`. -/
def runFold (env : Env) (batches : List (List Row)) (p : List ℕ) (st : RunState) : RunState :=
  p.foldl (stepBatch env batches) st

/-- Embeds `GNINADockingEngine.run_parallel_docking` for a fresh engine.
`perm` is the nondeterministic order in which `as_completed` yields the
submitted batches.  The persisted ledger `_ledger_file` is a parameter
only to make explicit that this function never reads it: at startup the
source calls `load_completed_pairs` (filesystem scan) and not
`load_docking_state`. -/
def runParallelDocking (env : Env) (batch_size : ℕ) (perm : List ℕ)
    (fs₀ : List String) (_ledger_file : Option SavedState) (catalog : List Row) : RunState :=
  runFold env (chunksOf batch_size catalog) perm
    { results := [], completed := loadCompletedPairs fs₀ [], fs := fs₀, dispatched := [] }

/-! ### Ledger persistence (`save_docking_state`) -/

/-- Comma-joined, quoted key list (the JSON rendering of
`list(self.completed_pairs)`). -/
def joinKeys : List String → String
  | [] => ""
  | [x] => "\"" ++ x ++ "\""
  | x :: y :: t => "\"" ++ x ++ "\", " ++ joinKeys (y :: t)

/-- The serialized state-file content produced by `json.dump(state, f)`
in `save_docking_state` (field order as in the source's dict). -/
def serializeState (st : SavedState) : String :=
  "\x7b\"timestamp\": \"" ++ st.timestamp ++ "\", \"total_pairs\": " ++
    toString st.total_pairs ++ ", \"completed_pairs\": [" ++ joinKeys st.completed_pairs ++
    "], \"results_count\": " ++ toString st.results_count ++ "\x7d"

/-- Crash semantics of `save_docking_state`: the source opens the state
file with mode `'w'` (truncate in place) and streams the JSON into it, so
the observable on-disk contents over time are the previous content, then
every prefix of the new serialization (starting with the empty file right
after `open`), ending with the complete new content. -/
def saveDockingStateTrace (old : String) (st : SavedState) : List String :=
  old :: (List.range ((serializeState st).data.length + 1)).map
    (fun k => (⟨(serializeState st).data.take k⟩ : String))

/-! ### Funnel Controller (`TieredCNNWorkflow.filter_ligands_for_stage`) -/

/-- One row of the `successful_results` dataframe built from the previous
stage's results: one record per pose score. -/
structure ScoreRow where
  receptor : String
  ligand : String
  site_id : String
  cnn_score : ℚ
deriving DecidableEq, Repr

/-- Embeds the extraction loop of `filter_ligands_for_stage`: every pose
score of every `success` result becomes one row (a `success` result dict
from `run_single_docking` always carries the `scores` key and each score
dict carries `cnn_score`, so the two `in` guards of the source always
pass on those results). -/
def successRows (previous : List DockResult) : List ScoreRow :=
  (previous.filter (fun r => decide (r.status = DockStatus.success))).flatMap
    (fun r => r.scores.map (fun s => ⟨r.receptor, r.ligand, r.site_id, s.cnn_score⟩))

/-- One stage configuration dict of `TieredCNNWorkflow.stages`. -/
structure StageCfg where
  name : String
  cnn_scoring : String
  exhaustiveness : ℕ
  num_modes : ℕ
  cnn_score_threshold : ℚ
  max_ligands_per_receptor : Option ℕ
  top_percentage : Option ℚ
deriving DecidableEq, Repr

/-- The three funnel stages. -/
inductive Stage where
  | A
  | B
  | C
deriving DecidableEq, Repr

/-- The hard-coded stage table of `TieredCNNWorkflow.__init__`. -/
def stages : Stage → StageCfg
  | .A => ⟨"Broad Screening", "rescore", 12, 8, 1/2, none, none⟩
  | .B => ⟨"Focused Refinement", "refinement", 24, 15, 7/10, some 5, some (1/20)⟩
  | .C => ⟨"High-Accuracy Validation", "all", 48, 20, 4/5, some 2, some (1/100)⟩

/-- Ascending insertion into a sorted rational list. -/
def insSortAsc (x : ℚ) : List ℚ → List ℚ
  | [] => [x]
  | y :: ys => if x < y then x :: y :: ys else y :: insSortAsc x ys

/-- Ascending sort of the sample underlying a quantile computation. -/
def sortAsc (l : List ℚ) : List ℚ := l.foldr insSortAsc []

/-- Embeds `pandas.Series.quantile(q)` with the default linear
interpolation: on the ascending sample, the value at fractional position
`q * (n - 1)`. -/
def pandasQuantile (q : ℚ) (l : List ℚ) : ℚ :=
  let s := sortAsc l
  if s.length = 0 then 0
  else
    let pos := q * ((s.length : ℚ) - 1)
    let i := (⌊pos⌋).toNat
    let lo := s.getD i 0
    let hi := s.getD (i + 1) lo
    lo + (pos - (⌊pos⌋ : ℚ)) * (hi - lo)

/-- Stable descending insertion by the rational component: a new element
goes before the first entry whose value does not exceed it, so earlier
entries win ties. -/
def insDescVal (x : String × ℚ) : List (String × ℚ) → List (String × ℚ)
  | [] => [x]
  | y :: ys => if x.2 < y.2 then y :: insDescVal x ys else x :: y :: ys

/-- Stable descending sort by value (the order `Series.nlargest` uses,
with its default `keep='first'`). -/
def sortDescVal : List (String × ℚ) → List (String × ℚ)
  | [] => []
  | x :: xs => insDescVal x (sortDescVal xs)

/-- Ascending insertion of a string key (Python string order). -/
def insSortStr (x : String) : List String → List String
  | [] => [x]
  | y :: ys => if strLtB x y then x :: y :: ys else y :: insSortStr x ys

/-- Ascending sort of string keys, as `pandas.groupby` sorts its group
keys by default. -/
def sortStr (l : List String) : List String := l.foldr insSortStr []

/-- The distinct ligands of a receptor group in ascending key order (the
index of `groupby('ligand')`). -/
def groupLigands (rows : List ScoreRow) : List String :=
  sortStr (dedupFirst (rows.map (·.ligand)))

/-- Best pose score of one ligand within a row group
(`groupby('ligand')['cnn_score'].max()` for one key). -/
def ligandMax (rows : List ScoreRow) (lig : String) : ℚ :=
  maxD ((rows.filter (fun r => decide (r.ligand = lig))).map (·.cnn_score))

/-- Embeds `df.groupby('ligand')['cnn_score'].max()`: a series indexed by
ligand in ascending key order. -/
def groupbyLigandMax (rows : List ScoreRow) : List (String × ℚ) :=
  (groupLigands rows).map (fun lig => (lig, ligandMax rows lig))

/-- Embeds `Series.nlargest(k)` with the default `keep='first'`: the
first `k` entries of the stable descending sort. -/
def nlargestFirst (k : ℕ) (l : List (String × ℚ)) : List (String × ℚ) :=
  (sortDescVal l).take k

/-- The `pair_scores` dataframe slice for one catalog row: prior-stage
pose rows matching receptor, ligand and site. -/
def pairScores (rows : List ScoreRow) (row : Row) : List ScoreRow :=
  rows.filter (fun sr => decide (sr.receptor = row.receptor) &&
    decide (sr.ligand = row.ligand) && decide (sr.site_id = row.site_id))

/-- The receptor group slice `results_df[results_df['receptor'] == receptor]`
(all pose rows of the receptor, every ligand and site). -/
def receptorRows (rows : List ScoreRow) (row : Row) : List ScoreRow :=
  rows.filter (fun sr => decide (sr.receptor = row.receptor))

/-- The top-percentage criterion of `filter_ligands_for_stage`: skipped
when unset, otherwise the item's best score must not be below the
`(1 - top_percentage)`-quantile of all pose scores of its receptor
group. -/
def topPercOK (cfg : StageCfg) (rows : List ScoreRow) (row : Row) (maxScore : ℚ) : Bool :=
  match cfg.top_percentage with
  | none => true
  | some p => !(maxScore < pandasQuantile (1 - p) ((receptorRows rows row).map (·.cnn_score)))

/-- The per-receptor cap criterion of `filter_ligands_for_stage`: skipped
when unset or when the receptor group has at most `max_ligands_per_receptor`
distinct ligands, otherwise the row's ligand must be among the
`nlargest` ligands by per-ligand best score. -/
def capOK (cfg : StageCfg) (rows : List ScoreRow) (row : Row) : Bool :=
  match cfg.max_ligands_per_receptor with
  | none => true
  | some m =>
    let recRows := receptorRows rows row
    if (dedupFirst (recRows.map (·.ligand))).length ≤ m then true
    else decide (row.ligand ∈ (nlargestFirst m (groupbyLigandMax recRows)).map (·.1))

/-- One iteration of the filtering loop of `filter_ligands_for_stage`:
`true` when the catalog row survives all three criteria (it must have
prior scores, meet the threshold on its best score, and pass the
percentile and cap checks). -/
def keepRow (cfg : StageCfg) (rows : List ScoreRow) (row : Row) : Bool :=
  let ps := pairScores rows row
  if ps.length = 0 then false
  else
    let maxScore := maxD (ps.map (·.cnn_score))
    if maxScore < cfg.cnn_score_threshold then false
    else topPercOK cfg rows row maxScore && capOK cfg rows row

/-- The filtering loop over the catalog (appends surviving rows in
catalog order). -/
def filterStageCore (cfg : StageCfg) (rows : List ScoreRow) (catalog : List Row) : List Row :=
  catalog.filter (keepRow cfg rows)

/-- Embeds `TieredCNNWorkflow.filter_ligands_for_stage`: stage A, an
empty `previous_results`, and a `previous_results` without any scored
success each fall back to the whole catalog; otherwise the catalog is
filtered through the three criteria. -/
def filterLigandsForStage (stage : Stage) (previous : List DockResult) (catalog : List Row) :
    List Row :=
  if stage = Stage.A then catalog
  else if previous.length = 0 then catalog
  else if (successRows previous).length = 0 then catalog
  else filterStageCore (stages stage) (successRows previous) catalog

/-- Best prior-stage pose score of one catalog row, the `max_cnn_score`
of the filtering loop (max over its `pair_scores` slice). -/
def bestOfItem (rows : List ScoreRow) (row : Row) : ℚ :=
  maxD ((pairScores rows row).map (·.cnn_score))

/-! ### Definitions following the specification's wording only
(refinement comparisons against the source-derived definitions above) -/

/-- Spec wording (§4.3): the claimed startup reconciliation key set, the
union of a persisted ledger file's keys and the filesystem scan. -/
def specStartupUnion (ledger : Option SavedState) (fs : List String) : List String :=
  (match ledger with
   | some st => st.completed_pairs
   | none => []) ++ startupCompleted fs

/-- Spec wording (§4.5, top-percentile): the distinct work items of a
receptor group, each contributing its best (maximum) pose score. -/
def specGroupBests (rows : List ScoreRow) (receptor : String) : List ℚ :=
  (dedupFirst ((rows.filter (fun sr => decide (sr.receptor = receptor))).map
      (fun sr => (sr.ligand, sr.site_id)))).map
    (fun p => maxD ((rows.filter (fun sr => decide (sr.receptor = receptor) &&
        decide (sr.ligand = p.1) && decide (sr.site_id = p.2))).map (·.cnn_score)))

/-- Spec wording (§4.5, per-group cap): the retained ligands of a
receptor group with ties broken by best score descending and then by
original catalog order. -/
def specCapSurvivors (m : ℕ) (catalog : List Row) (rows : List ScoreRow) (receptor : String) :
    List String :=
  ((sortDescVal ((dedupFirst ((catalog.filter (fun r => decide (r.receptor = receptor))).map
      (·.ligand))).map
      (fun lig =>
        (lig, ligandMax (rows.filter (fun sr => decide (sr.receptor = receptor))) lig)))).take
    m).map (·.1)

/-! ### Concrete fixtures for counterexamples and witnesses -/

/-- A work item with separator-free ids (`pair_id = "r_s_l"`). -/
def rowX : Row := ⟨"r", "l", "s", 0, 0, 0, 0, 0, 0⟩

/-- First of two distinct work items. -/
def rowR1 : Row := ⟨"r1", "l1", "s", 0, 0, 0, 0, 0, 0⟩

/-- Second of two distinct work items. -/
def rowR2 : Row := ⟨"r2", "l2", "s", 0, 0, 0, 0, 0, 0⟩

/-- A work item with `pair_id = "x_s_l"`. -/
def rowX2 : Row := ⟨"x", "l", "s", 0, 0, 0, 0, 0, 0⟩

/-- An environment whose tool always fails without writing an artifact. -/
def envSkip : Env := ⟨fun _ => .exited 1 "" false, fun _ => "", fun _ => none⟩

/-- An environment whose tool always succeeds and writes its artifact. -/
def envOk : Env := ⟨fun _ => .exited 0 "" true, fun _ => "", fun _ => none⟩

/-- An environment whose tool exits nonzero after writing its artifact. -/
def envErr : Env := ⟨fun _ => .exited 1 "boom" true, fun _ => "", fun _ => none⟩

/-- A ledger record for the persistence fixtures. -/
def stateEx : SavedState := ⟨"2024-01-01T00:00:00", 1, ["r_s_l"], 1⟩

/-- A ledger file listing the key of `rowX2`. -/
def ledgerEx : SavedState := ⟨"t", 1, ["x_s_l"], 1⟩

/-- A work item whose receptor id contains the separator. -/
def rowU1 : Row := ⟨"a_b", "d", "c", 0, 0, 0, 0, 0, 0⟩

/-- A distinct work item whose site id contains the separator. -/
def rowU2 : Row := ⟨"a", "d", "b_c", 0, 0, 0, 0, 0, 0⟩

/-- An `error` result for `rowX` (no scores key, as in the source). -/
def errResultEx : DockResult :=
  { status := .error, receptor := "r", ligand := "l", site_id := "s",
    error := some "boom", returncode := some 1, pair_id := "r_s_l" }

/-- A `success` result for `rowX` with one pose score. -/
def succResultEx : DockResult :=
  { status := .success, receptor := "r", ligand := "l", site_id := "s",
    output_file := some "gnina_out/r_s_l_poses.sdf", scores := [⟨1, 1, 1⟩],
    pair_id := "r_s_l" }

/-- Catalog rows of one receptor group with three ligands. -/
def rowL1 : Row := ⟨"r", "l1", "s", 0, 0, 0, 0, 0, 0⟩

/-- Second ligand of the group. -/
def rowL2 : Row := ⟨"r", "l2", "s", 0, 0, 0, 0, 0, 0⟩

/-- Third ligand of the group. -/
def rowL3 : Row := ⟨"r", "l3", "s", 0, 0, 0, 0, 0, 0⟩

/-- Stage result: ligand `l1` with a single pose scoring `1`. -/
def resL1 : DockResult :=
  { status := .success, receptor := "r", ligand := "l1", site_id := "s",
    scores := [⟨1, 1, 1⟩], pair_id := "r_s_l1" }

/-- Stage result: ligand `l2` with a single pose scoring `9/10`. -/
def resL2 : DockResult :=
  { status := .success, receptor := "r", ligand := "l2", site_id := "s",
    scores := [⟨1, 9/10, 9/10⟩], pair_id := "r_s_l2" }

/-- Stage result: ligand `l3` with best pose `8/10` and eighteen further
poses at `7/10` (its pose count drags the receptor group's all-pose
quantile below the per-item-best quantile). -/
def resL3 : DockResult :=
  { status := .success, receptor := "r", ligand := "l3", site_id := "s",
    scores :=
      [⟨1, 8/10, 8/10⟩,
       ⟨2, 7/10, 7/10⟩, ⟨3, 7/10, 7/10⟩, ⟨4, 7/10, 7/10⟩, ⟨5, 7/10, 7/10⟩,
       ⟨6, 7/10, 7/10⟩, ⟨7, 7/10, 7/10⟩, ⟨8, 7/10, 7/10⟩, ⟨9, 7/10, 7/10⟩,
       ⟨10, 7/10, 7/10⟩, ⟨11, 7/10, 7/10⟩, ⟨12, 7/10, 7/10⟩, ⟨13, 7/10, 7/10⟩,
       ⟨14, 7/10, 7/10⟩, ⟨15, 7/10, 7/10⟩, ⟨16, 7/10, 7/10⟩, ⟨17, 7/10, 7/10⟩,
       ⟨18, 7/10, 7/10⟩, ⟨19, 7/10, 7/10⟩],
    pair_id := "r_s_l3" }

/-- Previous-stage results for the percentile counterexample. -/
def prevC8 : List DockResult := [resL1, resL2, resL3]

/-- Catalog for the percentile counterexample. -/
def catalogC8 : List Row := [rowL1, rowL2, rowL3]

/-- Tie-break fixtures: ligands named `c`, `b`, `a` in catalog order. -/
def rowLc : Row := ⟨"r", "c", "s", 0, 0, 0, 0, 0, 0⟩

/-- Second catalog row of the tie-break group. -/
def rowLb : Row := ⟨"r", "b", "s", 0, 0, 0, 0, 0, 0⟩

/-- Third catalog row of the tie-break group. -/
def rowLa : Row := ⟨"r", "a", "s", 0, 0, 0, 0, 0, 0⟩

/-- Stage result for ligand `c`: a single pose scoring `9/10`. -/
def resLc : DockResult :=
  { status := .success, receptor := "r", ligand := "c", site_id := "s",
    scores := [⟨1, 9/10, 9/10⟩], pair_id := "r_s_c" }

/-- Stage result for ligand `b`: a single pose scoring `9/10`. -/
def resLb : DockResult :=
  { status := .success, receptor := "r", ligand := "b", site_id := "s",
    scores := [⟨1, 9/10, 9/10⟩], pair_id := "r_s_b" }

/-- Stage result for ligand `a`: a single pose scoring `9/10`. -/
def resLa : DockResult :=
  { status := .success, receptor := "r", ligand := "a", site_id := "s",
    scores := [⟨1, 9/10, 9/10⟩], pair_id := "r_s_a" }

/-- Previous-stage results for the tie-break counterexample. -/
def prevC9 : List DockResult := [resLc, resLb, resLa]

/-- Catalog for the tie-break counterexample. -/
def catalogC9 : List Row := [rowLc, rowLb, rowLa]

/-- Distinct-score fixtures for the cap witness: best scores `9/10`,
`8/10`, `7/10` for ligands `x`, `y`, `z`. -/
def rowsDistinct : List ScoreRow :=
  [⟨"r", "x", "s", 9/10⟩, ⟨"r", "y", "s", 8/10⟩, ⟨"r", "z", "s", 7/10⟩]

/-- The catalog row whose ligand is `x`, for the cap witness. -/
def rowW : Row := ⟨"r", "x", "s", 0, 0, 0, 0, 0, 0⟩

/-- The prior-stage pose rows extracted from `prevC9`. -/
def rows9C9 : List ScoreRow :=
  [⟨"r", "c", "s", 9/10⟩, ⟨"r", "b", "s", 9/10⟩, ⟨"r", "a", "s", 9/10⟩]

/-- The 21 prior-stage pose rows extracted from `prevC8`. -/
def rows21C8 : List ScoreRow :=
  [⟨"r", "l1", "s", 1⟩, ⟨"r", "l2", "s", 9/10⟩, ⟨"r", "l3", "s", 8/10⟩,
   ⟨"r", "l3", "s", 7/10⟩, ⟨"r", "l3", "s", 7/10⟩, ⟨"r", "l3", "s", 7/10⟩,
   ⟨"r", "l3", "s", 7/10⟩, ⟨"r", "l3", "s", 7/10⟩, ⟨"r", "l3", "s", 7/10⟩,
   ⟨"r", "l3", "s", 7/10⟩, ⟨"r", "l3", "s", 7/10⟩, ⟨"r", "l3", "s", 7/10⟩,
   ⟨"r", "l3", "s", 7/10⟩, ⟨"r", "l3", "s", 7/10⟩, ⟨"r", "l3", "s", 7/10⟩,
   ⟨"r", "l3", "s", 7/10⟩, ⟨"r", "l3", "s", 7/10⟩, ⟨"r", "l3", "s", 7/10⟩,
   ⟨"r", "l3", "s", 7/10⟩, ⟨"r", "l3", "s", 7/10⟩, ⟨"r", "l3", "s", 7/10⟩]

/-- The 21 pose scores of the group, in extraction order. -/
def scores21C8 : List ℚ :=
  [1, 9/10, 8/10,
   7/10, 7/10, 7/10, 7/10, 7/10, 7/10, 7/10, 7/10, 7/10,
   7/10, 7/10, 7/10, 7/10, 7/10, 7/10, 7/10, 7/10, 7/10]

/-- The 21 pose scores sorted ascending. -/
def sorted21C8 : List ℚ :=
  [7/10, 7/10, 7/10, 7/10, 7/10, 7/10, 7/10, 7/10, 7/10,
   7/10, 7/10, 7/10, 7/10, 7/10, 7/10, 7/10, 7/10, 7/10,
   8/10, 9/10, 1]

/-! ## Helper lemmas -/

theorem chunksGo_flatten (k : ℕ) (hk : 0 < k) :
    ∀ (fuel : ℕ) (l : List α), l.length ≤ fuel → (chunksGo k fuel l).flatten = l := by
  intro fuel
  induction fuel with
  | zero =>
    intro l hl
    cases l with
    | nil => rfl
    | cons a t => simp at hl
  | succ n ih =>
    intro l hl
    cases l with
    | nil => rfl
    | cons a t =>
      have hdrop : ((a :: t).drop k).length ≤ n := by
        rw [List.length_drop]
        simp only [List.length_cons] at hl ⊢
        omega
      simp only [chunksGo, List.flatten_cons, ih _ hdrop, List.take_append_drop]

theorem chunksOf_flatten (k : ℕ) (hk : 0 < k) (l : List α) :
    (chunksOf k l).flatten = l := by
  unfold chunksOf
  rw [if_neg (by omega)]
  exact chunksGo_flatten k hk l.length l le_rfl

theorem numberFrom_snoc (k : ℕ) (l : List ℚ) (v : ℚ) :
    numberFrom k (l ++ [v]) = numberFrom k l ++ [⟨k + l.length, v, v⟩] := by
  induction l generalizing k with
  | nil => simp [numberFrom]
  | cons w ws ih =>
    simp only [List.cons_append, numberFrom, List.append_eq, ih, List.length_cons]
    have h : k + 1 + ws.length = k + (ws.length + 1) := by omega
    rw [h]

theorem parseLinesGo_spec (parseF : String → Option ℚ) (lines : List (List Char))
    (scores : List PoseScore) :
    parseLinesGo parseF lines scores =
      scores ++ numberFrom (scores.length + 1)
        (lines.filterMap
          (fun line => if containsSub cnnTag line then (lastToken line).bind parseF else none)) := by
  induction lines generalizing scores with
  | nil => simp [parseLinesGo, numberFrom]
  | cons line rest ih =>
    by_cases htag : containsSub cnnTag line = true
    · cases hval : (lastToken line).bind parseF with
      | none => simp [parseLinesGo, htag, hval, ih]
      | some v =>
        simp only [parseLinesGo, htag, if_true, hval, ih, List.filterMap_cons]
        simp only [List.length_append, List.length_cons, List.length_nil, numberFrom,
          List.append_assoc, List.singleton_append]
    · simp only [Bool.not_eq_true] at htag
      simp [parseLinesGo, htag, ih]

/-! ## Claim C10 -/

/-- C10: the Output Parser is total and never raises: a missing or empty
artifact, or one with no recognized score-tagged line, yields `[]`; each
recognized line contributes one `PoseScore` whose `cnn_score` is the
line's trailing numeric token, `cnn_affinity` defaults to the same value,
and `pose_id`s are assigned 1-based in assignment order. -/
theorem claim_C10_parser_best_effort (parseF : String → Option ℚ) :
    parseGninaOutput parseF none = [] ∧
    parseGninaOutput parseF (some "") = [] ∧
    (∀ content : String,
      parseGninaOutput parseF (some content) = numberFrom 1 (recognizedVals parseF content)) ∧
    (∀ content : String, recognizedVals parseF content = [] →
      parseGninaOutput parseF (some content) = []) := by
  have key : ∀ content : String,
      parseGninaOutput parseF (some content) = numberFrom 1 (recognizedVals parseF content) := by
    intro content
    show parseLinesGo parseF (splitNl content.data) [] = _
    rw [parseLinesGo_spec]
    simp [recognizedVals]
  refine ⟨rfl, ?_, key, ?_⟩
  · rw [key ""]
    rfl
  · intro content h
    rw [key content, h]
    rfl

/-- Witness for C10 at a concrete parser and artifact. -/
theorem claim_C10_witness :
    recognizedVals (fun _ => none) "hello" = [] ∧
    parseGninaOutput (fun _ => none) (some "hello") = [] :=
  ⟨rfl, (claim_C10_parser_best_effort (fun _ => none)).2.2.2 "hello" rfl⟩

/-! ## Claim C4 -/

/-- C4 counterexample: `save_docking_state` opens the ledger file with
mode `'w'`, so right after the open the file is empty — a crash there
leaves content that is neither the previous valid ledger nor the new one,
refuting all-or-nothing replacement. -/
theorem claim_C4_counterexample :
    ("" ∈ saveDockingStateTrace "OLDLEDGER" stateEx) ∧
    ("" : String) ≠ "OLDLEDGER" ∧
    ("" : String) ≠ serializeState stateEx := by
  refine ⟨?_, by decide, ?_⟩
  · exact List.mem_cons_of_mem _ (List.mem_map.mpr ⟨0, List.mem_range.mpr (by omega), rfl⟩)
  · intro h
    have hd := congrArg String.data h
    simp only [serializeState, String.data_append] at hd
    simp at hd

/-- C4 amended: `persist()` rewrites the ledger file in place
(truncate-then-write, not an atomic replace): a crash during
`save_docking_state` leaves either the previous content or some possibly
empty, possibly partial prefix of the new serialization; only an
uninterrupted persist ends with the complete new state on disk. -/
theorem claim_C4_amended (old : String) (st : SavedState) :
    (∀ s ∈ saveDockingStateTrace old st, s = old ∨ s.data <+: (serializeState st).data) ∧
    (saveDockingStateTrace old st).getLast? = some (serializeState st) := by
  constructor
  · intro s hs
    rcases List.mem_cons.mp hs with h | h
    · exact Or.inl h
    · rcases List.mem_map.mp h with ⟨k, hk, rfl⟩
      exact Or.inr (List.take_prefix k _)
  · unfold saveDockingStateTrace
    rw [List.range_succ, List.map_append, List.map_singleton, ← List.cons_append,
      List.getLast?_concat, List.take_length]

/-- Witness for C4 amended at a concrete crash point (the truncated
file). -/
theorem claim_C4_amended_witness :
    ("" : String) = "OLDLEDGER" ∨ ("" : String).data <+: (serializeState stateEx).data :=
  (claim_C4_amended "OLDLEDGER" stateEx).1 ""
    (List.mem_cons_of_mem _ (List.mem_map.mpr ⟨0, List.mem_range.mpr (by omega), rfl⟩))

/-! ## Claim C7 -/

/-- C7 counterexample: the artifact path is the underscore-join of the
ids, which is not injective once ids contain underscores — two distinct
work-item keys map to the same artifact path. -/
theorem claim_C7_counterexample :
    outputSdf rowU1 = outputSdf rowU2 ∧
    (buildGninaCommand {} true {} rowU1 none).2.1 = (buildGninaCommand {} true {} rowU2 none).2.1 ∧
    rowU1 ≠ rowU2 ∧
    (rowU1.receptor, rowU1.site_id, rowU1.ligand) ≠ (rowU2.receptor, rowU2.site_id, rowU2.ligand) :=
  ⟨by decide, by decide, by decide, by decide⟩

theorem underscore_split (b b' : List Char) :
    ∀ (a a' : List Char), '_' ∉ a → '_' ∉ a' →
      a ++ '_' :: b = a' ++ '_' :: b' → a = a' ∧ b = b' := by
  intro a
  induction a with
  | nil =>
    intro a' _ ha' h
    cases a' with
    | nil => simpa using h
    | cons c t =>
      exfalso
      simp only [List.nil_append, List.cons_append, List.cons.injEq] at h
      apply ha'
      rw [← h.1]
      exact List.mem_cons_self '_' t
  | cons x xs ih =>
    intro a' ha ha' h
    cases a' with
    | nil =>
      exfalso
      simp only [List.nil_append, List.cons_append, List.cons.injEq] at h
      apply ha
      rw [h.1]
      exact List.mem_cons_self '_' xs
    | cons y ys =>
      simp only [List.cons_append, List.cons.injEq] at h
      obtain ⟨hxy, ht⟩ := h
      have hx : '_' ∉ xs := fun hm => ha (List.mem_cons_of_mem _ hm)
      have hy : '_' ∉ ys := fun hm => ha' (List.mem_cons_of_mem _ hm)
      obtain ⟨h1, h2⟩ := ih ys hx hy ht
      exact ⟨by rw [hxy, h1], h2⟩

theorem strData_inj {a b : String} (h : a.data = b.data) : a = b :=
  congrArg String.mk h

/-- C7 amended: the key-to-artifact-path map is deterministic but
injective only on ids free of the underscore separator; for such ids two
work items with equal derived artifact paths agree on receptor, site and
ligand ids. -/
theorem claim_C7_amended (r1 r2 : Row)
    (h1 : '_' ∉ r1.receptor.data) (h2 : '_' ∉ r1.site_id.data) (_h3 : '_' ∉ r1.ligand.data)
    (h4 : '_' ∉ r2.receptor.data) (h5 : '_' ∉ r2.site_id.data) (_h6 : '_' ∉ r2.ligand.data)
    (hpath : outputSdf r1 = outputSdf r2) :
    r1.receptor = r2.receptor ∧ r1.site_id = r2.site_id ∧ r1.ligand = r2.ligand := by
  have hd := congrArg String.data hpath
  have hu : ("_" : String).data = ['_'] := rfl
  simp only [outputSdf, sdfName, tagOf, String.data_append, List.append_assoc, hu,
    List.singleton_append] at hd
  have hd1 := List.append_cancel_left hd
  obtain ⟨hr, hrest⟩ := underscore_split _ _ _ _ h1 h4 hd1
  obtain ⟨hs, hrest2⟩ := underscore_split _ _ _ _ h2 h5 hrest
  have hl := List.append_cancel_right hrest2
  exact ⟨strData_inj hr, strData_inj hs, strData_inj hl⟩

/-- Witness for C7 amended at concrete separator-free ids. -/
theorem claim_C7_amended_witness :
    rowX.receptor = rowX.receptor ∧ rowX.site_id = rowX.site_id ∧ rowX.ligand = rowX.ligand :=
  claim_C7_amended rowX rowX (by decide) (by decide) (by decide) (by decide) (by decide)
    (by decide) rfl

/-! ## Claim C3 -/

/-- C3 counterexample: when the previous stage produced no successful
scored result at all, `filter_ligands_for_stage` falls back to the whole
catalog, so a work item with no prior-stage score is NOT excluded from a
stage `N > 1` input. -/
theorem claim_C3_counterexample :
    filterLigandsForStage Stage.B [errResultEx] [rowX] = [rowX] ∧
    successRows [errResultEx] = [] :=
  ⟨rfl, rfl⟩

/-- C3 amended: provided the previous stage has at least one successful
scored result, the stage input is a subset of the catalog and every
surviving work item has a successful scored prior-stage result (items
without one are excluded); when `previous_results` is empty or contains
no scored success, the full catalog is passed through unchanged. -/
theorem claim_C3_amended (stage : Stage) (previous : List DockResult) (catalog : List Row)
    (hstage : stage ≠ Stage.A) (hrows : (successRows previous).length ≠ 0) :
    (filterLigandsForStage stage previous catalog).Sublist catalog ∧
    ∀ row ∈ filterLigandsForStage stage previous catalog,
      ∃ sr ∈ successRows previous,
        sr.receptor = row.receptor ∧ sr.ligand = row.ligand ∧ sr.site_id = row.site_id := by
  have hprev : previous.length ≠ 0 := by
    intro h
    rw [List.length_eq_zero] at h
    subst h
    exact hrows rfl
  have hunfold : filterLigandsForStage stage previous catalog =
      filterStageCore (stages stage) (successRows previous) catalog := by
    unfold filterLigandsForStage
    rw [if_neg hstage, if_neg hprev, if_neg hrows]
  rw [hunfold]
  constructor
  · exact List.filter_sublist _
  · intro row hrow
    have hk := (List.mem_filter.mp hrow).2
    unfold keepRow at hk
    by_cases hps : (pairScores (successRows previous) row).length = 0
    · rw [if_pos hps] at hk
      exact absurd hk (by simp)
    · have hne : pairScores (successRows previous) row ≠ [] := by
        intro h
        exact hps (by rw [h]; rfl)
      obtain ⟨sr, hsr⟩ := List.exists_mem_of_ne_nil _ hne
      have hmem := List.mem_filter.mp hsr
      refine ⟨sr, hmem.1, ?_⟩
      have hcond := hmem.2
      simp only [Bool.and_eq_true, decide_eq_true_eq] at hcond
      exact ⟨hcond.1.1, hcond.1.2, hcond.2⟩

/-- Witness for C3 amended at a concrete stage input. -/
theorem claim_C3_amended_witness :
    (filterLigandsForStage Stage.B [succResultEx] [rowX]).Sublist [rowX] ∧
    ∀ row ∈ filterLigandsForStage Stage.B [succResultEx] [rowX],
      ∃ sr ∈ successRows [succResultEx],
        sr.receptor = row.receptor ∧ sr.ligand = row.ligand ∧ sr.site_id = row.site_id :=
  claim_C3_amended Stage.B [succResultEx] [rowX] (by decide) (by decide)

/-! ## Scheduler helper lemmas -/

theorem runSingleDocking_skip (completed fs : List String) (env : Env) (row : Row)
    (h : pairId row ∈ completed) :
    runSingleDocking completed fs env row = ⟨none, fs, []⟩ := by
  unfold runSingleDocking
  rw [if_pos h]

theorem runSingleDocking_parts (completed fs : List String) (env : Env) (row : Row)
    (bidx : ℕ) :
    (((runSingleDocking completed fs env row).result.map
        (fun r => { r with batch_idx := bidx })).toList).map (·.pair_id) =
      (if pairId row ∈ completed then [] else [pairId row]) ∧
    (runSingleDocking completed fs env row).dispatched =
      (if pairId row ∈ completed then [] else [pairId row]) := by
  unfold runSingleDocking
  by_cases h : pairId row ∈ completed
  · simp [h]
  · rw [if_neg h]
    cases env.invoke row with
    | timedOut w => simp [h]
    | exited rc stderr w =>
      dsimp only
      by_cases hc : rc = 0 ∧ sdfName row ∈ (if w = true then sdfName row :: fs else fs)
      · rw [if_pos hc]
        simp [h]
      · rw [if_neg hc]
        simp [h]

theorem processBatch_go (completed : List String) (env : Env) (bidx : ℕ) :
    ∀ (batch : List Row) (acc : BatchOut),
      ((batch.foldl (batchStep completed env bidx) acc).results.map (·.pair_id) =
        acc.results.map (·.pair_id) ++
          (batch.filter (fun r => decide (pairId r ∉ completed))).map pairId) ∧
      ((batch.foldl (batchStep completed env bidx) acc).dispatched =
        acc.dispatched ++
          (batch.filter (fun r => decide (pairId r ∉ completed))).map pairId) := by
  intro batch
  induction batch with
  | nil =>
    intro acc
    simp
  | cons row rest ih =>
    intro acc
    rw [List.foldl_cons]
    obtain ⟨ih1, ih2⟩ := ih (batchStep completed env bidx acc row)
    obtain ⟨hp1, hp2⟩ := runSingleDocking_parts completed acc.fs env row bidx
    have hstepres : (batchStep completed env bidx acc row).results.map (·.pair_id) =
        acc.results.map (·.pair_id) ++ (if pairId row ∈ completed then [] else [pairId row]) := by
      show (acc.results ++ _).map _ = _
      rw [List.map_append, hp1]
    have hstepdis : (batchStep completed env bidx acc row).dispatched =
        acc.dispatched ++ (if pairId row ∈ completed then [] else [pairId row]) := by
      show acc.dispatched ++ _ = _
      rw [hp2]
    by_cases h : pairId row ∈ completed
    · constructor
      · rw [ih1, hstepres]
        simp [List.filter_cons, h]
      · rw [ih2, hstepdis]
        simp [List.filter_cons, h]
    · constructor
      · rw [ih1, hstepres]
        simp [List.filter_cons, h]
      · rw [ih2, hstepdis]
        simp [List.filter_cons, h]

theorem processBatch_spec (completed fs : List String) (env : Env) (batch : List Row)
    (bidx : ℕ) :
    ((processBatch completed fs env batch bidx).results.map (·.pair_id) =
      (batch.filter (fun r => decide (pairId r ∉ completed))).map pairId) ∧
    ((processBatch completed fs env batch bidx).dispatched =
      (batch.filter (fun r => decide (pairId r ∉ completed))).map pairId) := by
  have h := processBatch_go completed env bidx batch ⟨[], fs, []⟩
  simpa [processBatch] using h

theorem successIds_append (a b : List DockResult) :
    successIds (a ++ b) = successIds a ++ successIds b := by
  simp [successIds, List.filter_append]

theorem successIds_subset_ids (rs : List DockResult) :
    ∀ k ∈ successIds rs, k ∈ rs.map (·.pair_id) := by
  intro k hk
  rcases List.mem_map.mp hk with ⟨r, hr, rfl⟩
  exact List.mem_map_of_mem _ ((List.mem_filter.mp hr).1)

theorem map_getD_range (l : List α) (d : α) :
    (List.range l.length).map (fun i => l.getD i d) = l := by
  induction l with
  | nil => rfl
  | cons a t ih =>
    rw [List.length_cons, List.range_succ_eq_map, List.map_cons, List.map_map]
    have hcomp : ((fun i => (a :: t).getD i d) ∘ Nat.succ) = fun i => t.getD i d := by
      funext i
      rfl
    rw [hcomp, ih]
    rfl

theorem batches_ids_disjoint (batches : List (List Row))
    (hnd : (batches.flatten.map pairId).Nodup) :
    ∀ i j, i < batches.length → j < batches.length → i ≠ j →
      ∀ a, a ∈ (batches.getD i []).map pairId → a ∉ (batches.getD j []).map pairId := by
  have h1 : ((batches.map (fun b => b.map pairId)).flatten).Nodup := by
    rw [← List.map_flatten]
    exact hnd
  have h2 := (List.nodup_flatten.mp h1).2
  have hdisj : ∀ i j, i < batches.length → j < batches.length → i < j →
      List.Disjoint ((batches.map (fun b => b.map pairId)).getD i [])
        ((batches.map (fun b => b.map pairId)).getD j []) := by
    intro i j hi hj hij
    have hi' : i < (batches.map (fun b => b.map pairId)).length := by simpa using hi
    have hj' : j < (batches.map (fun b => b.map pairId)).length := by simpa using hj
    rw [List.getD_eq_getElem _ _ hi', List.getD_eq_getElem _ _ hj']
    exact (List.pairwise_iff_getElem.mp h2) i j hi' hj' hij
  have hmapD : ∀ i, i < batches.length →
      (batches.map (fun b => b.map pairId)).getD i [] = (batches.getD i []).map pairId := by
    intro i hi
    have hi' : i < (batches.map (fun b => b.map pairId)).length := by simpa using hi
    rw [List.getD_eq_getElem _ _ hi', List.getD_eq_getElem _ _ hi, List.getElem_map]
  intro i j hi hj hij a hai haj
  rcases Nat.lt_or_ge i j with hlt | hge
  · have := hdisj i j hi hj hlt
    rw [hmapD i hi, hmapD j hj] at this
    exact this hai haj
  · have hjlt : j < i := by omega
    have := hdisj j i hj hi hjlt
    rw [hmapD j hj, hmapD i hi] at this
    exact this haj hai

theorem runFold_completed (env : Env) (batches : List (List Row)) :
    ∀ (p : List ℕ) (st : RunState), ∃ new : List DockResult,
      (runFold env batches p st).results = st.results ++ new ∧
      (runFold env batches p st).completed = st.completed ++ successIds new := by
  intro p
  induction p with
  | nil =>
    intro st
    exact ⟨[], by simp [runFold], by simp [runFold, successIds]⟩
  | cons i p' ih =>
    intro st
    obtain ⟨new', h1, h2⟩ := ih (stepBatch env batches st i)
    refine ⟨(processBatch st.completed st.fs env (batches.getD i []) i).results ++ new', ?_, ?_⟩
    · have hfold : runFold env batches (i :: p') st =
          runFold env batches p' (stepBatch env batches st i) := rfl
      rw [hfold, h1, ← List.append_assoc]
      rfl
    · have hfold : runFold env batches (i :: p') st =
          runFold env batches p' (stepBatch env batches st i) := rfl
      rw [hfold, h2, successIds_append, ← List.append_assoc]
      rfl

theorem runFold_spec (env : Env) (batches : List (List Row)) (completed0 : List String)
    (hnd : (batches.flatten.map pairId).Nodup) :
    ∀ (p : List ℕ) (st : RunState),
      p.Nodup →
      (∀ i ∈ p, i < batches.length) →
      (∀ i ∈ p, ∀ row ∈ batches.getD i [],
        (pairId row ∈ st.completed ↔ pairId row ∈ completed0)) →
      ((runFold env batches p st).results.map (·.pair_id) =
          st.results.map (·.pair_id) ++
            (p.map (fun i => ((batches.getD i []).filter
              (fun r => decide (pairId r ∉ completed0))).map pairId)).flatten) ∧
      ((runFold env batches p st).dispatched =
          st.dispatched ++
            (p.map (fun i => ((batches.getD i []).filter
              (fun r => decide (pairId r ∉ completed0))).map pairId)).flatten) := by
  intro p
  induction p with
  | nil =>
    intro st _ _ _
    simp [runFold]
  | cons i p' ih =>
    intro st hnodup hbound hagree
    have hagree_i := hagree i (List.mem_cons_self i p')
    have hfilter_eq : (batches.getD i []).filter (fun r => decide (pairId r ∉ st.completed)) =
        (batches.getD i []).filter (fun r => decide (pairId r ∉ completed0)) := by
      apply List.filter_congr
      intro r hr
      simp only [decide_eq_decide]
      exact not_congr (hagree_i r hr)
    obtain ⟨hpb1, hpb2⟩ := processBatch_spec st.completed st.fs env (batches.getD i []) i
    have hres' : (stepBatch env batches st i).results.map (·.pair_id) =
        st.results.map (·.pair_id) ++
          ((batches.getD i []).filter (fun r => decide (pairId r ∉ completed0))).map pairId := by
      show (st.results ++ _).map _ = _
      rw [List.map_append, hpb1, hfilter_eq]
    have hdis' : (stepBatch env batches st i).dispatched =
        st.dispatched ++
          ((batches.getD i []).filter (fun r => decide (pairId r ∉ completed0))).map pairId := by
      show st.dispatched ++ _ = _
      rw [hpb2, hfilter_eq]
    have hagree' : ∀ j ∈ p', ∀ row ∈ batches.getD j [],
        (pairId row ∈ (stepBatch env batches st i).completed ↔ pairId row ∈ completed0) := by
      intro j hj row hrow
      have hji : j ≠ i := by
        rintro rfl
        exact (List.nodup_cons.mp hnodup).1 hj
      have hjlt := hbound j (List.mem_cons_of_mem _ hj)
      have hilt := hbound i (List.mem_cons_self _ _)
      have hnotin : pairId row ∉
          successIds (processBatch st.completed st.fs env (batches.getD i []) i).results := by
        intro hmem
        have h1 := successIds_subset_ids _ _ hmem
        rw [hpb1, hfilter_eq] at h1
        have h2 : pairId row ∈ (batches.getD i []).map pairId := by
          rcases List.mem_map.mp h1 with ⟨r, hr, hrid⟩
          exact List.mem_map.mpr ⟨r, (List.filter_sublist _).subset hr, hrid⟩
        have h3 : pairId row ∈ (batches.getD j []).map pairId := List.mem_map_of_mem _ hrow
        exact batches_ids_disjoint batches hnd i j hilt hjlt (fun h => hji h.symm) _ h2 h3
      have hsplit : pairId row ∈ (stepBatch env batches st i).completed ↔
          pairId row ∈ st.completed ∨ pairId row ∈
            successIds (processBatch st.completed st.fs env (batches.getD i []) i).results := by
        exact List.mem_append
      rw [hsplit]
      constructor
      · rintro (h | h)
        · exact (hagree j (List.mem_cons_of_mem _ hj) row hrow).mp h
        · exact absurd h hnotin
      · intro h
        exact Or.inl ((hagree j (List.mem_cons_of_mem _ hj) row hrow).mpr h)
    obtain ⟨ihr, ihd⟩ := ih (stepBatch env batches st i) (List.nodup_cons.mp hnodup).2
      (fun j hj => hbound j (List.mem_cons_of_mem _ hj)) hagree'
    have hfold : runFold env batches (i :: p') st =
        runFold env batches p' (stepBatch env batches st i) := rfl
    constructor
    · rw [hfold, ihr, hres', List.map_cons, List.flatten_cons, List.append_assoc]
    · rw [hfold, ihd, hdis', List.map_cons, List.flatten_cons, List.append_assoc]

theorem flatten_range_filter (batches : List (List Row)) (q : Row → Bool) :
    ((List.range batches.length).map
        (fun i => ((batches.getD i []).filter q).map pairId)).flatten =
      (batches.flatten.filter q).map pairId := by
  rw [show (fun i => ((batches.getD i []).filter q).map pairId) =
      (fun b => (b.filter q).map pairId) ∘ (fun i => batches.getD i []) from rfl,
    ← List.map_map, map_getD_range]
  rw [show (fun b : List Row => (b.filter q).map pairId) =
      (List.map pairId) ∘ (List.filter q) from rfl,
    ← List.map_map, ← List.map_flatten, ← List.filter_flatten]

/-! ## Claim C1 -/

/-- C1 counterexample: with the work item's key already reconstructed
into the ledger from its artifact, the run launches no child process —
but instead of synthesizing a `success` DockingResult re-parsed from the
artifact, `run_single_docking` returns `None` and the item is dropped:
the run returns an empty result list for a fully-covered catalog. -/
theorem claim_C1_counterexample :
    (runParallelDocking envSkip 5 [0] ["r_s_l_poses.sdf"] none [rowX]).results = [] ∧
    (runParallelDocking envSkip 5 [0] ["r_s_l_poses.sdf"] none [rowX]).dispatched = [] ∧
    pairId rowX ∈ startupCompleted ["r_s_l_poses.sdf"] :=
  ⟨rfl, rfl, by decide⟩

/-- C1 amended: a WorkItem whose key is in the ledger is skipped without
any child-process invocation but yields NO DockingResult (it is dropped,
not synthesized); every WorkItem whose key is not in the ledger is
dispatched exactly once.  Hence a fully-covered catalog produces zero
invocations (and an empty result list), and a ledger covering a subset S
of an N-item catalog with distinct keys produces exactly N − |S|
invocations, in any batch completion order. -/
theorem claim_C1_amended (env : Env) (bs : ℕ) (perm : List ℕ) (fs₀ : List String)
    (lf : Option SavedState) (catalog : List Row)
    (hbs : 0 < bs) (hnd : (catalog.map pairId).Nodup)
    (hperm : perm.Perm (List.range (chunksOf bs catalog).length)) :
    ((runParallelDocking env bs perm fs₀ lf catalog).results.map (·.pair_id) =
      (runParallelDocking env bs perm fs₀ lf catalog).dispatched) ∧
    (runParallelDocking env bs perm fs₀ lf catalog).dispatched.Perm
      ((catalog.filter (fun r => decide (pairId r ∉ startupCompleted fs₀))).map pairId) := by
  have hflat : (chunksOf bs catalog).flatten = catalog := chunksOf_flatten bs hbs catalog
  have hnd' : ((chunksOf bs catalog).flatten.map pairId).Nodup := by
    rw [hflat]
    exact hnd
  have hpnodup : perm.Nodup := hperm.nodup_iff.mpr (List.nodup_range _)
  have hbound : ∀ i ∈ perm, i < (chunksOf bs catalog).length := fun i hi =>
    List.mem_range.mp (hperm.mem_iff.mp hi)
  obtain ⟨h1, h2⟩ := runFold_spec env (chunksOf bs catalog) (startupCompleted fs₀) hnd'
    perm ⟨[], loadCompletedPairs fs₀ [], fs₀, []⟩ hpnodup hbound (fun _ _ _ _ => Iff.rfl)
  constructor
  · show (runFold _ _ _ _).results.map (·.pair_id) = (runFold _ _ _ _).dispatched
    rw [h1, h2]
    rfl
  · show (runFold _ _ _ _).dispatched.Perm _
    rw [h2]
    dsimp only
    simp only [List.nil_append]
    have hpf := (hperm.map (fun i => (((chunksOf bs catalog).getD i []).filter
      (fun r => decide (pairId r ∉ startupCompleted fs₀))).map pairId)).flatten
    refine hpf.trans ?_
    rw [flatten_range_filter, hflat]

/-- Witness for C1 amended at a concrete one-item catalog. -/
theorem claim_C1_amended_witness :
    ((runParallelDocking envOk 1 [0] [] none [rowR1]).results.map (·.pair_id) =
      (runParallelDocking envOk 1 [0] [] none [rowR1]).dispatched) ∧
    (runParallelDocking envOk 1 [0] [] none [rowR1]).dispatched.Perm
      (([rowR1].filter (fun r => decide (pairId r ∉ startupCompleted []))).map pairId) :=
  claim_C1_amended envOk 1 [0] [] none [rowR1] (by omega) (by decide) (by decide)

/-! ## Claim C2 -/

/-- C2 counterexample: results are appended in batch-completion order
(`as_completed`), never reordered — when the second batch finishes first
the returned list is not in catalog order. -/
theorem claim_C2_counterexample :
    ((runParallelDocking envOk 1 [1, 0] [] none [rowR1, rowR2]).results.map (·.pair_id) =
      [pairId rowR2, pairId rowR1]) ∧
    ([rowR1, rowR2].map pairId = [pairId rowR1, pairId rowR2]) ∧
    pairId rowR1 ≠ pairId rowR2 :=
  ⟨rfl, rfl, by decide⟩

/-- C2 amended: the run returns the results of each batch in the batch's
completion order (catalog order within a batch); catalog order of the
whole output holds when batches complete in submission order — and
pre-skipped items appear nowhere in the output. -/
theorem claim_C2_amended (env : Env) (bs : ℕ) (fs₀ : List String) (lf : Option SavedState)
    (catalog : List Row) (hbs : 0 < bs) (hnd : (catalog.map pairId).Nodup) :
    (runParallelDocking env bs (List.range (chunksOf bs catalog).length) fs₀ lf
        catalog).results.map (·.pair_id) =
      (catalog.filter (fun r => decide (pairId r ∉ startupCompleted fs₀))).map pairId := by
  have hflat : (chunksOf bs catalog).flatten = catalog := chunksOf_flatten bs hbs catalog
  have hnd' : ((chunksOf bs catalog).flatten.map pairId).Nodup := by
    rw [hflat]
    exact hnd
  obtain ⟨h1, _⟩ := runFold_spec env (chunksOf bs catalog) (startupCompleted fs₀) hnd'
    (List.range (chunksOf bs catalog).length)
    ⟨[], loadCompletedPairs fs₀ [], fs₀, []⟩ (List.nodup_range _)
    (fun i hi => List.mem_range.mp hi) (fun _ _ _ _ => Iff.rfl)
  show (runFold _ _ _ _).results.map (·.pair_id) = _
  rw [h1]
  dsimp only
  simp only [List.map_nil, List.nil_append]
  rw [flatten_range_filter, hflat]

/-- Witness for C2 amended at a concrete two-item catalog. -/
theorem claim_C2_amended_witness :
    (runParallelDocking envOk 1 (List.range (chunksOf 1 [rowR1, rowR2]).length) [] none
        [rowR1, rowR2]).results.map (·.pair_id) =
      (([rowR1, rowR2].filter (fun r => decide (pairId r ∉ startupCompleted []))).map pairId) :=
  claim_C2_amended envOk 1 [] none [rowR1, rowR2] (by omega) (by decide)

/-! ## Claim C5 -/

/-- C5 counterexample: a key present only in the persisted ledger file is
NOT skipped — `run_parallel_docking` dispatches it, because the startup
reconciliation is the filesystem scan alone and never reads the ledger
file (the claimed union would contain the key). -/
theorem claim_C5_counterexample :
    ((runParallelDocking envOk 5 [0] [] (some ledgerEx) [rowX2]).dispatched =
      [pairId rowX2]) ∧
    pairId rowX2 ∈ specStartupUnion (some ledgerEx) [] ∧
    startupCompleted ([] : List String) = [] :=
  ⟨rfl, by decide, rfl⟩

/-- C5 amended: at Scheduler startup the completed-key set equals the
filesystem-scan contribution alone (keys reconstructed by stripping
`_poses.sdf` from artifact names); the persisted ledger file is never
read by `run_parallel_docking` — the run is entirely independent of it —
and the separate `load_docking_state` replaces (does not union) the
in-memory set. -/
theorem claim_C5_amended (env : Env) (bs : ℕ) (perm : List ℕ) (fs₀ : List String)
    (catalog : List Row) (lf lf' : Option SavedState) (k : String) (st : SavedState)
    (cur : List String) :
    runParallelDocking env bs perm fs₀ lf catalog =
      runParallelDocking env bs perm fs₀ lf' catalog ∧
    (k ∈ startupCompleted fs₀ ↔ ∃ file ∈ fs₀, scanKey file = some k) ∧
    loadDockingState (some st) cur = st.completed_pairs := by
  refine ⟨rfl, ?_, rfl⟩
  simp [startupCompleted, loadCompletedPairs, List.mem_filterMap]

/-! ## Claim C6 -/

/-- C6 counterexample: a run whose tool writes the artifact but exits
nonzero yields an `error` result and (correctly) no in-run ledger entry —
yet the next startup's filesystem scan reconstructs its key from the
artifact, so the errored item is treated as completed and is NOT
re-dispatched. -/
theorem claim_C6_counterexample :
    ((runParallelDocking envErr 5 [0] [] none [rowX]).results.map (·.status) =
      [DockStatus.error]) ∧
    ((runParallelDocking envErr 5 [0] [] none [rowX]).completed = []) ∧
    ((runParallelDocking envErr 5 [0] [] none [rowX]).fs = ["r_s_l_poses.sdf"]) ∧
    pairId rowX ∈ startupCompleted ["r_s_l_poses.sdf"] ∧
    (runParallelDocking envErr 5 [0] ["r_s_l_poses.sdf"] none [rowX]).dispatched = [] :=
  ⟨rfl, rfl, rfl, by decide, rfl⟩

/-- C6 amended: within a run only keys of `success` results are added to
the ledger (the final completed set is exactly the startup set plus the
successful keys); the startup reconstruction, however, adds the key of
every artifact file present on disk regardless of the status of the run
that produced it, so an errored item whose artifact exists is skipped,
not re-dispatched. -/
theorem claim_C6_amended (env : Env) (bs : ℕ) (perm : List ℕ) (fs₀ : List String)
    (lf : Option SavedState) (catalog : List Row) :
    (runParallelDocking env bs perm fs₀ lf catalog).completed =
      startupCompleted fs₀ ++
        successIds (runParallelDocking env bs perm fs₀ lf catalog).results := by
  obtain ⟨new, h1, h2⟩ := runFold_completed env (chunksOf bs catalog) perm
    ⟨[], loadCompletedPairs fs₀ [], fs₀, []⟩
  show (runFold _ _ _ _).completed = _
  rw [h2]
  congr 1
  have h1' : (runParallelDocking env bs perm fs₀ lf catalog).results = new := by
    show (runFold _ _ _ _).results = new
    rw [h1]
    rfl
  rw [h1']

/-! ## Claim C8 -/

set_option maxHeartbeats 1000000 in
theorem sortAsc_scores21C8 : sortAsc scores21C8 = sorted21C8 := by
  norm_num [scores21C8, sorted21C8, sortAsc, insSortAsc]

theorem quantile_scores21C8 : pandasQuantile (1 - 1/20) scores21C8 = 9/10 := by
  simp only [pandasQuantile, sortAsc_scores21C8]
  norm_num [sorted21C8, Int.toNat_ofNat, List.getD_cons_succ, List.getD_cons_zero]
  try rfl

theorem successRows_prevC8 : successRows prevC8 = rows21C8 := rfl

theorem receptorRows_C8_l2 : receptorRows rows21C8 rowL2 = rows21C8 := rfl

theorem pairScores_C8_l2 : pairScores rows21C8 rowL2 = [⟨"r", "l2", "s", 9/10⟩] := rfl

theorem topPercOK_C8_l2 : topPercOK (stages Stage.B) rows21C8 rowL2 (9/10) = true := by
  show (!((9/10 : ℚ) < pandasQuantile (1 - 1/20)
      ((receptorRows rows21C8 rowL2).map (·.cnn_score)))) = true
  rw [receptorRows_C8_l2,
    show rows21C8.map (·.cnn_score) = scores21C8 from rfl, quantile_scores21C8,
    decide_eq_false (by norm_num : ¬((9/10 : ℚ) < 9/10))]
  rfl

theorem capOK_C8_l2 : capOK (stages Stage.B) rows21C8 rowL2 = true := rfl

theorem keepRow_C8_l2 : keepRow (stages Stage.B) rows21C8 rowL2 = true := by
  unfold keepRow
  rw [pairScores_C8_l2]
  rw [if_neg (by norm_num : ¬(([(⟨"r", "l2", "s", 9/10⟩ : ScoreRow)] : List ScoreRow).length = 0))]
  rw [show maxD (([(⟨"r", "l2", "s", 9/10⟩ : ScoreRow)] : List ScoreRow).map (·.cnn_score)) =
    (9/10 : ℚ) from rfl]
  rw [if_neg (by norm_num [stages] : ¬((9/10 : ℚ) < (stages Stage.B).cnn_score_threshold))]
  rw [topPercOK_C8_l2, capOK_C8_l2]
  rfl

theorem specGroupBests_C8 : specGroupBests rows21C8 "r" = [1, 9/10, 8/10] := by
  simp [specGroupBests, rows21C8, dedupFirst, dedupFirstAux, maxD]
  norm_num [max_def]

theorem quantile_specC8 : pandasQuantile (1 - 1/20) [(1 : ℚ), 9/10, 8/10] = 99/100 := by
  have hs : sortAsc [(1 : ℚ), 9/10, 8/10] = [(8 : ℚ)/10, 9/10, 1] := by
    norm_num [sortAsc, insSortAsc]
  simp only [pandasQuantile, hs]
  norm_num [Int.toNat_ofNat, List.getD_cons_succ, List.getD_cons_zero]
  try rfl

/-- C8 counterexample: the source computes the percentile threshold over
ALL pose scores of the receptor group, not over the per-item best scores:
ligand `l2` (best `9/10`) passes the code's top-percentile criterion and
survives stage B filtering although its best score is strictly below the
`(1 − 0.05)`-quantile of the group's per-item bests, falsifying the
claimed if-and-only-if. -/
theorem claim_C8_counterexample :
    topPercOK (stages Stage.B) (successRows prevC8) rowL2
        (bestOfItem (successRows prevC8) rowL2) = true ∧
    rowL2 ∈ filterLigandsForStage Stage.B prevC8 catalogC8 ∧
    bestOfItem (successRows prevC8) rowL2 <
      pandasQuantile (1 - 1/20) (specGroupBests (successRows prevC8) "r") := by
  have hbest : bestOfItem rows21C8 rowL2 = 9/10 := rfl
  refine ⟨?_, ?_, ?_⟩
  · rw [successRows_prevC8, hbest]
    exact topPercOK_C8_l2
  · have hfl : filterLigandsForStage Stage.B prevC8 catalogC8 =
        filterStageCore (stages Stage.B) rows21C8 catalogC8 := rfl
    rw [hfl]
    exact List.mem_filter.mpr ⟨by decide, keepRow_C8_l2⟩
  · rw [successRows_prevC8, hbest, specGroupBests_C8, quantile_specC8]
    norm_num

/-- C8 amended: with `top_percentage` set to `p`, a WorkItem that
survives the stage filter has best score at least the `(1 − p)`-quantile
of ALL pose scores of its receptor group (not of the per-item best
scores), and the top-percentile criterion itself passes exactly when the
best score reaches that all-pose quantile. -/
theorem claim_C8_amended (cfg : StageCfg) (rows : List ScoreRow) (catalog : List Row)
    (row : Row) (p : ℚ) (hp : cfg.top_percentage = some p) :
    (row ∈ filterStageCore cfg rows catalog →
      pandasQuantile (1 - p) ((receptorRows rows row).map (·.cnn_score)) ≤
        bestOfItem rows row) ∧
    (∀ m : ℚ, topPercOK cfg rows row m = true ↔
      pandasQuantile (1 - p) ((receptorRows rows row).map (·.cnn_score)) ≤ m) := by
  have hiff : ∀ m : ℚ, topPercOK cfg rows row m = true ↔
      pandasQuantile (1 - p) ((receptorRows rows row).map (·.cnn_score)) ≤ m := by
    intro m
    unfold topPercOK
    rw [hp]
    simp [not_lt]
  refine ⟨?_, hiff⟩
  intro hmem
  have hk := (List.mem_filter.mp hmem).2
  unfold keepRow at hk
  by_cases hps0 : (pairScores rows row).length = 0
  · rw [if_pos hps0] at hk
    exact absurd hk (by simp)
  · rw [if_neg hps0] at hk
    by_cases hth : maxD ((pairScores rows row).map (·.cnn_score)) < cfg.cnn_score_threshold
    · rw [if_pos hth] at hk
      exact absurd hk (by simp)
    · rw [if_neg hth] at hk
      exact (hiff _).mp ((Bool.and_eq_true _ _).mp hk).1

/-- Witness for C8 amended at stage B's configuration. -/
theorem claim_C8_amended_witness :
    (rowX ∈ filterStageCore (stages Stage.B) [⟨"r", "l", "s", 1⟩] [rowX] →
      pandasQuantile (1 - 1/20) ((receptorRows [⟨"r", "l", "s", 1⟩] rowX).map (·.cnn_score)) ≤
        bestOfItem [⟨"r", "l", "s", 1⟩] rowX) ∧
    (∀ m : ℚ, topPercOK (stages Stage.B) [⟨"r", "l", "s", 1⟩] rowX m = true ↔
      pandasQuantile (1 - 1/20)
          ((receptorRows [⟨"r", "l", "s", 1⟩] rowX).map (·.cnn_score)) ≤ m) :=
  claim_C8_amended (stages Stage.B) [⟨"r", "l", "s", 1⟩] [rowX] rowX (1/20) rfl

/-! ## Claim C9 -/

theorem insDescVal_perm (x : String × ℚ) (l : List (String × ℚ)) :
    (insDescVal x l).Perm (x :: l) := by
  induction l with
  | nil => exact List.Perm.refl _
  | cons y ys ih =>
    unfold insDescVal
    by_cases h : x.2 < y.2
    · rw [if_pos h]
      exact (ih.cons y).trans (List.Perm.swap x y ys)
    · rw [if_neg h]

theorem sortDescVal_perm (l : List (String × ℚ)) : (sortDescVal l).Perm l := by
  induction l with
  | nil => exact List.Perm.refl _
  | cons x xs ih =>
    unfold sortDescVal
    exact (insDescVal_perm x (sortDescVal xs)).trans (ih.cons x)

theorem insDescVal_sorted (x : String × ℚ) (l : List (String × ℚ))
    (h : l.Pairwise (fun a b => b.2 ≤ a.2)) :
    (insDescVal x l).Pairwise (fun a b => b.2 ≤ a.2) := by
  induction l with
  | nil =>
    unfold insDescVal
    exact List.pairwise_singleton _ _
  | cons y ys ih =>
    rw [List.pairwise_cons] at h
    unfold insDescVal
    by_cases hxy : x.2 < y.2
    · rw [if_pos hxy]
      rw [List.pairwise_cons]
      refine ⟨?_, ih h.2⟩
      intro a ha
      rcases List.mem_cons.mp ((insDescVal_perm x ys).mem_iff.mp ha) with rfl | hays
      · exact le_of_lt hxy
      · exact h.1 a hays
    · rw [if_neg hxy]
      rw [List.pairwise_cons]
      refine ⟨?_, List.pairwise_cons.mpr h⟩
      intro a ha
      rcases List.mem_cons.mp ha with rfl | hays
      · exact le_of_not_lt hxy
      · exact le_trans (h.1 a hays) (le_of_not_lt hxy)

theorem sortDescVal_sorted (l : List (String × ℚ)) :
    (sortDescVal l).Pairwise (fun a b => b.2 ≤ a.2) := by
  induction l with
  | nil => exact List.Pairwise.nil
  | cons x xs ih =>
    unfold sortDescVal
    exact insDescVal_sorted x _ ih

theorem mem_take_sorted_iff :
    ∀ (s : List (String × ℚ)), s.Pairwise (fun a b => b.2 ≤ a.2) →
      (s.map (·.2)).Nodup → ∀ x ∈ s, ∀ m : ℕ,
      (x ∈ s.take m ↔ (s.filter (fun y => decide (x.2 < y.2))).length < m) := by
  intro s
  induction s with
  | nil =>
    intro _ _ x hx
    exact absurd hx (List.not_mem_nil x)
  | cons y t ih =>
    intro hs hnd x hx m
    rw [List.pairwise_cons] at hs
    rw [List.map_cons, List.nodup_cons] at hnd
    rcases List.mem_cons.mp hx with rfl | hxt
    · have hfilt : (x :: t).filter (fun z => decide (x.2 < z.2)) = [] := by
        rw [List.filter_cons, if_neg (by simp)]
        rw [List.filter_eq_nil_iff]
        intro z hz
        simp only [decide_eq_true_eq]
        exact not_lt.mpr (hs.1 z hz)
      rw [hfilt]
      simp only [List.length_nil]
      cases m with
      | zero => simp
      | succ m' =>
        simp only [List.take_succ_cons]
        constructor
        · intro _
          omega
        · intro _
          exact List.mem_cons_self _ _
    · have hyx : x.2 < y.2 := by
        rcases lt_or_eq_of_le (hs.1 x hxt) with h | h
        · exact h
        · exfalso
          apply hnd.1
          rw [← h]
          exact List.mem_map_of_mem (·.2) hxt
      have hfilt : (y :: t).filter (fun z => decide (x.2 < z.2)) =
          y :: t.filter (fun z => decide (x.2 < z.2)) := by
        rw [List.filter_cons, if_pos (by simp [hyx])]
      rw [hfilt]
      cases m with
      | zero => simp
      | succ m' =>
        rw [List.take_succ_cons, List.length_cons]
        have hx_ne_y : x ≠ y := by
          intro he
          rw [he] at hyx
          exact lt_irrefl _ hyx
        constructor
        · intro hmem
          rcases List.mem_cons.mp hmem with h | hmem'
          · exact absurd h hx_ne_y
          · have := (ih hs.2 hnd.2 x hxt m').mp hmem'
            omega
        · intro hlen
          refine List.mem_cons_of_mem _ ((ih hs.2 hnd.2 x hxt m').mpr ?_)
          omega

theorem mem_groupbyLigandMax (rows : List ScoreRow) (y : String × ℚ)
    (hy : y ∈ groupbyLigandMax rows) : y = (y.1, ligandMax rows y.1) := by
  rcases List.mem_map.mp hy with ⟨lig, _, rfl⟩
  rfl

/-- C9 amended: with `max_per_group = m` and more than `m` distinct
ligands in the receptor group, a row passes the cap criterion exactly
when fewer than `m` group ligands have a strictly greater best score
(given pairwise-distinct bests) — i.e. exactly the `m` highest-scoring
ligands survive; on ties the source keeps the lexicographically smallest
ligand ids (`groupby` sorts keys and `nlargest` keeps first), not the
original catalog order. -/
theorem claim_C9_amended (cfg : StageCfg) (rows : List ScoreRow) (row : Row) (m : ℕ)
    (hm : cfg.max_ligands_per_receptor = some m)
    (hnd : ((groupbyLigandMax (receptorRows rows row)).map (·.2)).Nodup)
    (hmem : (row.ligand, ligandMax (receptorRows rows row) row.ligand) ∈
      groupbyLigandMax (receptorRows rows row))
    (hbig : m < (dedupFirst ((receptorRows rows row).map (·.ligand))).length) :
    (capOK cfg rows row = true ↔
      ((groupbyLigandMax (receptorRows rows row)).filter
        (fun y => decide (ligandMax (receptorRows rows row) row.ligand < y.2))).length < m) := by
  unfold capOK
  rw [hm]
  dsimp only
  rw [if_neg (by omega)]
  rw [decide_eq_true_eq]
  unfold nlargestFirst
  have hsorted := sortDescVal_sorted (groupbyLigandMax (receptorRows rows row))
  have hperm := sortDescVal_perm (groupbyLigandMax (receptorRows rows row))
  have hnds : ((sortDescVal (groupbyLigandMax (receptorRows rows row))).map (·.2)).Nodup :=
    (hperm.map (·.2)).nodup_iff.mpr hnd
  have hxs : (row.ligand, ligandMax (receptorRows rows row) row.ligand) ∈
      sortDescVal (groupbyLigandMax (receptorRows rows row)) := hperm.mem_iff.mpr hmem
  have hchar := mem_take_sorted_iff _ hsorted hnds _ hxs m
  have hflen := (hperm.filter
    (fun y => decide (ligandMax (receptorRows rows row) row.ligand < y.2))).length_eq
  constructor
  · intro hlig
    obtain ⟨y, hy, hyfst⟩ := List.mem_map.mp hlig
    have hyG : y ∈ groupbyLigandMax (receptorRows rows row) :=
      hperm.mem_iff.mp ((List.take_sublist m _).subset hy)
    have hyx : y = (row.ligand, ligandMax (receptorRows rows row) row.ligand) := by
      rw [mem_groupbyLigandMax _ y hyG, hyfst]
    rw [hyx] at hy
    rw [← hflen]
    exact hchar.mp hy
  · intro hrank
    refine List.mem_map.mpr
      ⟨(row.ligand, ligandMax (receptorRows rows row) row.ligand), ?_, rfl⟩
    refine hchar.mpr ?_
    rw [hflen]
    exact hrank

theorem groupbyLigandMax_distinct :
    groupbyLigandMax (receptorRows rowsDistinct rowW) =
      [("x", 9/10), ("y", 8/10), ("z", 7/10)] := rfl

/-- Witness for C9 amended at a three-ligand group with distinct bests
and stage C's cap of 2. -/
theorem claim_C9_amended_witness :
    capOK (stages Stage.C) rowsDistinct rowW = true ↔
      ((groupbyLigandMax (receptorRows rowsDistinct rowW)).filter
        (fun y => decide (ligandMax (receptorRows rowsDistinct rowW) rowW.ligand < y.2))).length
        < 2 :=
  claim_C9_amended (stages Stage.C) rowsDistinct rowW 2 rfl
    (by rw [groupbyLigandMax_distinct]; norm_num)
    (by rw [groupbyLigandMax_distinct]; exact List.mem_cons_self _ _)
    (by decide)

theorem successRows_prevC9 : successRows prevC9 = rows9C9 := rfl

theorem quantile_C9 : pandasQuantile (1 - 1/100) [(9 : ℚ)/10, 9/10, 9/10] = 9/10 := by
  have hs : sortAsc [(9 : ℚ)/10, 9/10, 9/10] = [(9 : ℚ)/10, 9/10, 9/10] := by
    norm_num [sortAsc, insSortAsc]
  simp only [pandasQuantile, hs]
  norm_num [Int.toNat_ofNat, List.getD_cons_succ, List.getD_cons_zero]
  try rfl

theorem sortDescVal_C9 :
    sortDescVal [("a", (9 : ℚ)/10), ("b", 9/10), ("c", 9/10)] =
      [("a", (9 : ℚ)/10), ("b", 9/10), ("c", 9/10)] := by
  norm_num [sortDescVal, insDescVal]

theorem topLigands_C9 :
    (nlargestFirst 2 (groupbyLigandMax rows9C9)).map (·.1) = ["a", "b"] := by
  unfold nlargestFirst
  rw [show groupbyLigandMax rows9C9 = [("a", (9 : ℚ)/10), ("b", 9/10), ("c", 9/10)] from rfl,
    sortDescVal_C9]
  rfl

theorem capOK_C9_c : capOK (stages Stage.C) rows9C9 rowLc = false := by
  unfold capOK
  dsimp only
  rw [show receptorRows rows9C9 rowLc = rows9C9 from rfl]
  rw [show (stages Stage.C).max_ligands_per_receptor = some 2 from rfl]
  dsimp only
  rw [if_neg (by rw [show (dedupFirst (rows9C9.map (·.ligand))).length = 3 from rfl]; omega)]
  rw [topLigands_C9]
  rfl

theorem capOK_C9_b : capOK (stages Stage.C) rows9C9 rowLb = true := by
  unfold capOK
  dsimp only
  rw [show receptorRows rows9C9 rowLb = rows9C9 from rfl]
  rw [show (stages Stage.C).max_ligands_per_receptor = some 2 from rfl]
  dsimp only
  rw [if_neg (by rw [show (dedupFirst (rows9C9.map (·.ligand))).length = 3 from rfl]; omega)]
  rw [topLigands_C9]
  rfl

theorem capOK_C9_a : capOK (stages Stage.C) rows9C9 rowLa = true := by
  unfold capOK
  dsimp only
  rw [show receptorRows rows9C9 rowLa = rows9C9 from rfl]
  rw [show (stages Stage.C).max_ligands_per_receptor = some 2 from rfl]
  dsimp only
  rw [if_neg (by rw [show (dedupFirst (rows9C9.map (·.ligand))).length = 3 from rfl]; omega)]
  rw [topLigands_C9]
  rfl

theorem topPercOK_C9_c : topPercOK (stages Stage.C) rows9C9 rowLc (9/10) = true := by
  show (!((9/10 : ℚ) < pandasQuantile (1 - 1/100)
      ((receptorRows rows9C9 rowLc).map (·.cnn_score)))) = true
  rw [show (receptorRows rows9C9 rowLc).map (·.cnn_score) = [(9 : ℚ)/10, 9/10, 9/10] from rfl,
    quantile_C9, decide_eq_false (by norm_num : ¬((9/10 : ℚ) < 9/10))]
  rfl

theorem topPercOK_C9_b : topPercOK (stages Stage.C) rows9C9 rowLb (9/10) = true := by
  show (!((9/10 : ℚ) < pandasQuantile (1 - 1/100)
      ((receptorRows rows9C9 rowLb).map (·.cnn_score)))) = true
  rw [show (receptorRows rows9C9 rowLb).map (·.cnn_score) = [(9 : ℚ)/10, 9/10, 9/10] from rfl,
    quantile_C9, decide_eq_false (by norm_num : ¬((9/10 : ℚ) < 9/10))]
  rfl

theorem topPercOK_C9_a : topPercOK (stages Stage.C) rows9C9 rowLa (9/10) = true := by
  show (!((9/10 : ℚ) < pandasQuantile (1 - 1/100)
      ((receptorRows rows9C9 rowLa).map (·.cnn_score)))) = true
  rw [show (receptorRows rows9C9 rowLa).map (·.cnn_score) = [(9 : ℚ)/10, 9/10, 9/10] from rfl,
    quantile_C9, decide_eq_false (by norm_num : ¬((9/10 : ℚ) < 9/10))]
  rfl

theorem keepRow_C9_c : keepRow (stages Stage.C) rows9C9 rowLc = false := by
  unfold keepRow
  rw [show pairScores rows9C9 rowLc = [⟨"r", "c", "s", 9/10⟩] from rfl]
  rw [if_neg (by norm_num : ¬(([(⟨"r", "c", "s", 9/10⟩ : ScoreRow)] : List ScoreRow).length = 0))]
  rw [show maxD (([(⟨"r", "c", "s", 9/10⟩ : ScoreRow)] : List ScoreRow).map (·.cnn_score)) =
    (9/10 : ℚ) from rfl]
  rw [if_neg (by norm_num [stages] : ¬((9/10 : ℚ) < (stages Stage.C).cnn_score_threshold))]
  rw [topPercOK_C9_c, capOK_C9_c]
  rfl

theorem keepRow_C9_b : keepRow (stages Stage.C) rows9C9 rowLb = true := by
  unfold keepRow
  rw [show pairScores rows9C9 rowLb = [⟨"r", "b", "s", 9/10⟩] from rfl]
  rw [if_neg (by norm_num : ¬(([(⟨"r", "b", "s", 9/10⟩ : ScoreRow)] : List ScoreRow).length = 0))]
  rw [show maxD (([(⟨"r", "b", "s", 9/10⟩ : ScoreRow)] : List ScoreRow).map (·.cnn_score)) =
    (9/10 : ℚ) from rfl]
  rw [if_neg (by norm_num [stages] : ¬((9/10 : ℚ) < (stages Stage.C).cnn_score_threshold))]
  rw [topPercOK_C9_b, capOK_C9_b]
  rfl

theorem keepRow_C9_a : keepRow (stages Stage.C) rows9C9 rowLa = true := by
  unfold keepRow
  rw [show pairScores rows9C9 rowLa = [⟨"r", "a", "s", 9/10⟩] from rfl]
  rw [if_neg (by norm_num : ¬(([(⟨"r", "a", "s", 9/10⟩ : ScoreRow)] : List ScoreRow).length = 0))]
  rw [show maxD (([(⟨"r", "a", "s", 9/10⟩ : ScoreRow)] : List ScoreRow).map (·.cnn_score)) =
    (9/10 : ℚ) from rfl]
  rw [if_neg (by norm_num [stages] : ¬((9/10 : ℚ) < (stages Stage.C).cnn_score_threshold))]
  rw [topPercOK_C9_a, capOK_C9_a]
  rfl

/-- C9 counterexample: three ligands `c`, `b`, `a` (catalog order) tie at
best score `9/10` under stage C's cap of 2.  The source keeps `a` and `b`
(pandas sorts group keys, `nlargest` then keeps the first of equals), so
the filtered catalog is `[rowLb, rowLa]` — but under the claimed
original-catalog-order tie-break the survivors would be `c` and `b`:
`rowLc` is excluded although the claim retains it. -/
theorem claim_C9_counterexample :
    filterLigandsForStage Stage.C prevC9 catalogC9 = [rowLb, rowLa] ∧
    specCapSurvivors 2 catalogC9 (successRows prevC9) "r" = ["c", "b"] ∧
    rowLc ∉ filterLigandsForStage Stage.C prevC9 catalogC9 := by
  have hfilter : filterLigandsForStage Stage.C prevC9 catalogC9 = [rowLb, rowLa] := by
    rw [show filterLigandsForStage Stage.C prevC9 catalogC9 =
      filterStageCore (stages Stage.C) rows9C9 catalogC9 from rfl]
    unfold filterStageCore
    rw [show catalogC9 = [rowLc, rowLb, rowLa] from rfl]
    rw [List.filter_cons, List.filter_cons, List.filter_cons, List.filter_nil]
    rw [keepRow_C9_c, keepRow_C9_b, keepRow_C9_a]
    rfl
  have hspec : specCapSurvivors 2 catalogC9 (successRows prevC9) "r" = ["c", "b"] := by
    rw [successRows_prevC9]
    show ((sortDescVal [("c", (9 : ℚ)/10), ("b", 9/10), ("a", 9/10)]).take 2).map (·.1) =
      ["c", "b"]
    rw [show sortDescVal [("c", (9 : ℚ)/10), ("b", 9/10), ("a", 9/10)] =
      [("c", (9 : ℚ)/10), ("b", 9/10), ("a", 9/10)] from by norm_num [sortDescVal, insDescVal]]
    rfl
  refine ⟨hfilter, hspec, ?_⟩
  rw [hfilter]
  decide

end GninaWf
